import Mathlib

/-!
Shallow embedding of fpylll integer matrices (src/fpylll/integer_matrix.pyx).

The matrix data model embeds the dense ZZ_mat backing store: a shape together
with an entry function; only cells with index below the shape belong to the
matrix.  Integer entries are arbitrary precision (mpz), embedded as Int.
GMP facts used throughout: mpz_mod always returns the representative in
[0, abs q), which is exactly Int.emod, and mpz_fdiv_q_ui is floor division,
which is exactly Int.fdiv.
-/

/-- Dense matrix of arbitrary-precision integers.  Embeds the ZZ_mat backing
store owned by an IntegerMatrix: a shape plus the stored entries; cells with
i < nrows and j < ncols are the matrix contents. -/
structure IntegerMatrix where
  nrows : Nat
  ncols : Nat
  entry : Nat → Nat → Int

/-- Build a matrix from row lists (helper for concrete test inputs). -/
def ofLists (m n : Nat) (rows : List (List Int)) : IntegerMatrix :=
  ⟨m, n, fun i j => (rows.getD i []).getD j 0⟩

/-- Modelled from the spec: fpylll.util.preprocess_indices is not part of the
given source.  The spec says negative indices count from the end, exactly once
(normalize to dim + index), and any index outside [0, dim) after normalization
is a reported error, never silent truncation. -/
def preprocess_index (i : Int) (d : Nat) : Except String Nat :=
  let i2 := if i < 0 then i + d else i
  if 0 ≤ i2 ∧ i2 < (d : Int) then Except.ok i2.toNat else Except.error "IndexError"

/-- Embeds the tuple branch of IntegerMatrix.__getitem__: preprocess both
indices, then read the cell. -/
def IntegerMatrix.getitem (A : IntegerMatrix) (i j : Int) : Except String Int :=
  match preprocess_index i A.nrows with
  | Except.error e => Except.error e
  | Except.ok i2 =>
    match preprocess_index j A.ncols with
    | Except.error e => Except.error e
    | Except.ok j2 => Except.ok (A.entry i2 j2)

/-- Key forms accepted by IntegerMatrix.__setitem__: a tuple of two indices, or
a single int (a whole-row key). -/
inductive Key where
  | pair (i j : Int)
  | idx (i : Int)

/-- Embeds IntegerMatrix.__setitem__: a tuple key preprocesses both indices and
assigns the value into that cell; an int key preprocesses the row index and
then raises NotImplementedError without writing anything. -/
def IntegerMatrix.setitem (A : IntegerMatrix) (k : Key) (v : Int) :
    Except String IntegerMatrix :=
  match k with
  | Key.pair i j =>
    match preprocess_index i A.nrows with
    | Except.error e => Except.error e
    | Except.ok i2 =>
      match preprocess_index j A.ncols with
      | Except.error e => Except.error e
      | Except.ok j2 =>
        Except.ok ⟨A.nrows, A.ncols, fun a b => if a = i2 ∧ b = j2 then v else A.entry a b⟩
  | Key.idx i =>
    match preprocess_index i A.nrows with
    | Except.error e => Except.error e
    | Except.ok _ => Except.error "NotImplementedError"

/-- Embeds IntegerMatrix.__mul__: a ValueError when the inner dimensions
disagree, otherwise the A.nrows x B.ncols matrix whose cell (i, j) is
accumulated by addmul over the shared dimension into a zero-initialized cell. -/
def IntegerMatrix.mul (A B : IntegerMatrix) : Except String IntegerMatrix :=
  if A.ncols ≠ B.nrows then
    Except.error "dimension mismatch"
  else
    Except.ok ⟨A.nrows, B.ncols,
      fun i j => ∑ t in Finset.range A.ncols, A.entry i t * B.entry t j⟩

/-- One entry of the modular reduction in IntegerMatrix.mod: t2 is
mpz_mod(v, q), the representative in [0, abs q), which is Int.emod; q2 is
mpz_fdiv_q_ui(q, 2), floor division, which is Int.fdiv; when t2 > q2 the
modulus is subtracted. -/
def mod_entry (q v : Int) : Int :=
  let t2 := v % q
  if Int.fdiv q 2 < t2 then t2 - q else t2

/-- Embeds IntegerMatrix.mod: start indices are preprocessed against the shape,
stop indices against shape + 1.  The guard reproduces the source condition
`start_row <= i < stop_row and start_col <= i < stop_col` verbatim: both range
tests are applied to the row index i. -/
def IntegerMatrix.mod (A : IntegerMatrix) (q start_row start_col stop_row stop_col : Int) :
    Except String IntegerMatrix :=
  match preprocess_index start_row A.nrows, preprocess_index start_col A.ncols,
      preprocess_index stop_row (A.nrows + 1), preprocess_index stop_col (A.ncols + 1) with
  | Except.ok sr, Except.ok sc, Except.ok tr, Except.ok tc =>
    Except.ok ⟨A.nrows, A.ncols, fun i j =>
      if i < A.nrows ∧ j < A.ncols ∧ (sr ≤ i ∧ i < tr) ∧ (sc ≤ i ∧ i < tc) then
        mod_entry q (A.entry i j)
      else A.entry i j⟩
  | _, _, _, _ => Except.error "IndexError"

/-- Follows the words of the specification, for comparison with
IntegerMatrix.mod: reduce exactly the rows in [start_row, stop_row) and the
columns in [start_col, stop_col), the column test being on the column index j. -/
def IntegerMatrix.mod_rect (A : IntegerMatrix) (q start_row start_col stop_row stop_col : Int) :
    Except String IntegerMatrix :=
  match preprocess_index start_row A.nrows, preprocess_index start_col A.ncols,
      preprocess_index stop_row (A.nrows + 1), preprocess_index stop_col (A.ncols + 1) with
  | Except.ok sr, Except.ok sc, Except.ok tr, Except.ok tc =>
    Except.ok ⟨A.nrows, A.ncols, fun i j =>
      if i < A.nrows ∧ j < A.ncols ∧ (sr ≤ i ∧ i < tr) ∧ (sc ≤ j ∧ j < tc) then
        mod_entry q (A.entry i j)
      else A.entry i j⟩
  | _, _, _, _ => Except.error "IndexError"

/-- Generators reachable from IntegerMatrix.randomize; gen_ajtai is the fplll
Ajtai-style generator. -/
inductive Generator where
  | gen_intrel
  | gen_simdioph
  | gen_uniform
  | gen_ntrulike
  | gen_ntrulike2
  | gen_ajtai
  deriving DecidableEq

/-- Embeds the dispatch chain of IntegerMatrix.randomize: which fplll generator
a given algorithm name reaches, or the ValueError raised for unknown names.
The string compared in the last branch of the source is the misspelled
"atjai". -/
def IntegerMatrix.randomize (algorithm : String) : Except String Generator :=
  if algorithm = "intrel" then Except.ok Generator.gen_intrel
  else if algorithm = "simdioph" then Except.ok Generator.gen_simdioph
  else if algorithm = "uniform" then Except.ok Generator.gen_uniform
  else if algorithm = "ntrulike" then Except.ok Generator.gen_ntrulike
  else if algorithm = "ntrulike2" then Except.ok Generator.gen_ntrulike2
  else if algorithm = "atjai" then Except.ok Generator.gen_ajtai
  else Except.error "Algorithm unknown"

/-- Iterate a fallible step over a list, stopping at the first raised error;
this is the loop over a Python iterator whose body may raise. -/
def mapExcept {α β : Type} (f : α → Except String β) : List α → Except String (List β)
  | [] => Except.ok []
  | a :: t =>
    match f a with
    | Except.error e => Except.error e
    | Except.ok b =>
      match mapExcept f t with
      | Except.error e => Except.error e
      | Except.ok bs => Except.ok (b :: bs)

/-- Embeds the iterable branch of IntegerMatrix.submatrix: the result shape is
the pair of iterator lengths, and cell (i, j) of the result is the cell of A at
the preprocessed rows[i] and cols[j]; an out-of-range index raises and the new
matrix is discarded. -/
def IntegerMatrix.submatrix (A : IntegerMatrix) (rows cols : List Int) :
    Except String IntegerMatrix :=
  match mapExcept (fun r => preprocess_index r A.nrows) rows,
      mapExcept (fun c => preprocess_index c A.ncols) cols with
  | Except.ok rows2, Except.ok cols2 =>
    Except.ok ⟨rows.length, cols.length,
      fun i j => A.entry (rows2.getD i 0) (cols2.getD j 0)⟩
  | _, _ => Except.error "IndexError"

/-- Embeds the equality branch of IntegerMatrix.__richcmp__ (op 2): equal iff
same shape and every corresponding in-range entry is equal. -/
def IntegerMatrix.eqMat (A B : IntegerMatrix) : Bool :=
  decide (A.nrows = B.nrows) && decide (A.ncols = B.ncols) &&
    (List.range A.nrows).all (fun i =>
      (List.range A.ncols).all (fun j => A.entry i j == B.entry i j))

/-- Empty placeholder matrix, the default for out-of-range heap lookups. -/
def emptyMat : IntegerMatrix := ⟨0, 0, fun _ _ => 0⟩

/-- Heap of live matrix objects.  Aliasing claims need object identity, so
matrices are addressed by a reference: an index into this list of backing
stores. -/
structure Heap where
  mats : List IntegerMatrix

/-- Matrix currently stored at reference r. -/
def Heap.getMat (h : Heap) (r : Nat) : IntegerMatrix := h.mats.getD r emptyMat

/-- Embeds the copy branch of IntegerMatrix.__init__: a fresh backing store of
the same shape is allocated and the entries are copied element-wise; returns
the extended heap and the reference of the new copy. -/
def Heap.copyInit (h : Heap) (a : Nat) : Heap × Nat :=
  (⟨h.mats ++ [⟨(h.getMat a).nrows, (h.getMat a).ncols, fun i j => (h.getMat a).entry i j⟩]⟩,
    h.mats.length)

/-- In-place entry assignment through reference r: the backing store at r is
updated at cell (i, j), every other reference keeps its store. -/
def Heap.setE (h : Heap) (r i j : Nat) (v : Int) : Heap :=
  ⟨h.mats.set r ⟨(h.getMat r).nrows, (h.getMat r).ncols,
    fun a b => if a = i ∧ b = j then v else (h.getMat r).entry a b⟩⟩

/-- Entry read through reference r. -/
def Heap.getE (h : Heap) (r i j : Nat) : Int := (h.getMat r).entry i j

/-- Test matrix for C1: one row, two columns, both entries 10. -/
def mat12 : IntegerMatrix := ofLists 1 2 [[10, 10]]

/-- Test matrix for C2: two rows, one column, both entries 10. -/
def mat21 : IntegerMatrix := ofLists 2 1 [[10], [10]]

/-- Test matrix for C5: one row, one column, single entry 3. -/
def mat11 : IntegerMatrix := ofLists 1 1 [[3]]

/-- Left factor of the __mul__ doctest. -/
def matAd : IntegerMatrix := ofLists 2 2 [[2, 0], [1, 3]]

/-- Right factor of the __mul__ doctest. -/
def matBd : IntegerMatrix := ofLists 2 2 [[3, 2], [3, 3]]

/-- Product payload of the __mul__ doctest factors. -/
def matCd : IntegerMatrix :=
  ⟨2, 2, fun i j => ∑ t in Finset.range 2, matAd.entry i t * matBd.entry t j⟩

/-- Third factor for the associativity witness. -/
def matCe : IntegerMatrix := ofLists 2 2 [[1, 2], [3, 4]]

/-- Test matrix for C7: two rows, one column. -/
def mat7 : IntegerMatrix := ofLists 2 1 [[4], [8]]

/-- Test heap for C8: a single 1 x 1 matrix with entry 5. -/
def heap8 : Heap := ⟨[ofLists 1 1 [[5]]]⟩

/-- Test matrix for C9. -/
def mat33 : IntegerMatrix := ofLists 3 3 [[1, 2, 3], [4, 5, 6], [7, 8, 9]]

/-- Expected submatrix payload for the C9 witness: rows [2, 0], cols [0, 0]. -/
def matS9 : IntegerMatrix :=
  ⟨2, 2, fun i j => mat33.entry (([2, 0] : List Nat).getD i 0) (([0, 0] : List Nat).getD j 0)⟩

/-- Test matrix for C10. -/
def mat22 : IntegerMatrix := ofLists 2 2 [[1, 2], [3, 4]]

/-- Preprocessing index 0 succeeds against any positive dimension. -/
theorem preprocess_index_zero (d : Nat) (hd : 0 < d) :
    preprocess_index 0 d = Except.ok 0 := by
  unfold preprocess_index
  rw [if_neg (lt_irrefl 0), if_pos ⟨le_refl 0, by exact_mod_cast hd⟩]
  rfl

/-- Preprocessing the default stop index -1 against dimension d + 1 yields d. -/
theorem preprocess_index_neg_one (d : Nat) :
    preprocess_index (-1) (d + 1) = Except.ok d := by
  unfold preprocess_index
  rw [if_pos (by omega), if_pos (by omega)]
  congr 1
  omega

/-- C1: on the 1 x 2 matrix [[10, 10]], mod(10, start_col = 1) leaves entry (0, 1)
at 10, because the column-range test compares the row index against start_col;
the rectangle semantics the claim states reduces entry (0, 1) to 0. -/
theorem c1_mod_column_range_tests_row_index :
    (IntegerMatrix.mod mat12 10 0 1 (-1) (-1)).map (fun M => M.entry 0 1) = Except.ok 10 ∧
    (IntegerMatrix.mod_rect mat12 10 0 1 (-1) (-1)).map (fun M => M.entry 0 1) = Except.ok 0 :=
  ⟨rfl, rfl⟩

/-- C2: after mod(10) over the default full range, entry (1, 0) of the 2 x 1
matrix [[10], [10]] is still 10, which is not below the bound floor(10 / 2) of
the centered interval, because the column-range test 0 <= i < 1 fails for the
row index 1. -/
theorem c2_mod_full_range_misses_entries :
    (IntegerMatrix.mod mat21 10 0 0 (-1) (-1)).map (fun M => M.entry 1 0) = Except.ok 10 ∧
    ¬ ((10 : Int) ≤ Int.fdiv 10 2) :=
  ⟨rfl, by decide⟩

/-- C4 counterexample: randomize with the documented spelling ajtai is rejected
with the unknown-algorithm ValueError instead of reaching the Ajtai generator. -/
theorem c4_randomize_ajtai_unknown :
    IntegerMatrix.randomize "ajtai" = Except.error "Algorithm unknown" := rfl

/-- C4 amended: the dispatch succeeds exactly for the names intrel, simdioph,
uniform, ntrulike, ntrulike2 and the misspelled atjai, and atjai is the name
that reaches the Ajtai generator. -/
theorem c4_randomize_dispatch (s : String) :
    ((∃ g, IntegerMatrix.randomize s = Except.ok g) ↔
      s ∈ ["intrel", "simdioph", "uniform", "ntrulike", "ntrulike2", "atjai"]) ∧
    IntegerMatrix.randomize "atjai" = Except.ok Generator.gen_ajtai := by
  refine ⟨?_, rfl⟩
  unfold IntegerMatrix.randomize
  split_ifs with h1 h2 h3 h4 h5 h6 <;> simp_all

/-- C5 counterexample: mod with the negative modulus -10 on the 1 x 1 matrix
[[3]] reports no error; the reduction proceeds and the entry becomes 13. -/
theorem c5_mod_negative_modulus_proceeds :
    (IntegerMatrix.mod mat11 (-10) 0 0 (-1) (-1)).map (fun M => M.entry 0 0) =
      Except.ok 13 := rfl

/-- C5 amended: mod performs no positivity check on the modulus: over the
default full range on a matrix with at least one row and one column, every
negative q is accepted and the reduction proceeds without reporting an error. -/
theorem c5_mod_skips_positivity_check (A : IntegerMatrix) (q : Int)
    (hm : 0 < A.nrows) (hn : 0 < A.ncols) (_hq : q < 0) :
    ∃ B, IntegerMatrix.mod A q 0 0 (-1) (-1) = Except.ok B := by
  unfold IntegerMatrix.mod
  rw [preprocess_index_zero A.nrows hm, preprocess_index_zero A.ncols hn,
    preprocess_index_neg_one A.nrows, preprocess_index_neg_one A.ncols]
  exact ⟨_, rfl⟩

/-- C5 amended witness: the 1 x 1 matrix [[3]] with q = -10. -/
theorem c5_mod_skips_positivity_check_witness :
    ∃ B, IntegerMatrix.mod mat11 (-10) 0 0 (-1) (-1) = Except.ok B :=
  c5_mod_skips_positivity_check mat11 (-10) (by decide) (by decide) (by decide)

/-- C3: multiplication returns a result exactly when the inner dimensions
agree, reports the dimension-mismatch ValueError otherwise, and the result has
A.nrows rows, B.ncols columns and exact integer dot products as entries. -/
theorem c3_mul_correct (A B : IntegerMatrix) :
    ((∃ C, IntegerMatrix.mul A B = Except.ok C) ↔ A.ncols = B.nrows) ∧
    (A.ncols ≠ B.nrows → IntegerMatrix.mul A B = Except.error "dimension mismatch") ∧
    ∀ C, IntegerMatrix.mul A B = Except.ok C →
      C.nrows = A.nrows ∧ C.ncols = B.ncols ∧
      ∀ i j, C.entry i j = ∑ t in Finset.range A.ncols, A.entry i t * B.entry t j := by
  unfold IntegerMatrix.mul
  by_cases h : A.ncols = B.nrows
  · rw [if_neg (by simp [h])]
    refine ⟨by simp [h], by simp [h], ?_⟩
    intro C hC
    cases hC
    exact ⟨rfl, rfl, fun i j => rfl⟩
  · rw [if_pos h]
    refine ⟨by simp [h], fun _ => rfl, ?_⟩
    intro C hC
    cases hC

/-- C3 witness: the doctest factors have matching dimensions and multiply, and
entry (1, 1) of the product is the dot product of row 1 of A and column 1 of B. -/
theorem c3_mul_correct_witness :
    (∃ C, IntegerMatrix.mul matAd matBd = Except.ok C) ∧
      matCd.entry 1 1 = ∑ t in Finset.range 2, matAd.entry 1 t * matBd.entry t 1 :=
  ⟨(c3_mul_correct matAd matBd).1.mpr rfl,
    ((c3_mul_correct matAd matBd).2.2 matCd rfl).2.2 1 1⟩

/-- C6: multiplication is associative on compatible shapes, exactly. -/
theorem c6_mul_assoc (A B C : IntegerMatrix)
    (hAB : A.ncols = B.nrows) (hBC : B.ncols = C.nrows) :
    (IntegerMatrix.mul A B).bind (fun D => IntegerMatrix.mul D C) =
      (IntegerMatrix.mul B C).bind (fun D => IntegerMatrix.mul A D) := by
  unfold IntegerMatrix.mul
  rw [if_neg (by simp [hAB]), if_neg (by simp [hBC])]
  simp only [Except.bind]
  rw [if_neg (by simp [hBC]), if_neg (by simp [hAB])]
  congr 1
  refine congrArg (IntegerMatrix.mk A.nrows C.ncols) ?_
  funext i j
  simp only [Finset.sum_mul, Finset.mul_sum, mul_assoc]
  exact Finset.sum_comm

/-- C6 witness: the doctest factors together with a third 2 x 2 matrix. -/
theorem c6_mul_assoc_witness :
    (IntegerMatrix.mul matAd matBd).bind (fun D => IntegerMatrix.mul D matCe) =
      (IntegerMatrix.mul matBd matCe).bind (fun D => IntegerMatrix.mul matAd D) :=
  c6_mul_assoc matAd matBd matCe rfl rfl

/-- C7: writing any arbitrary-precision integer at a valid, possibly negative,
index pair and reading the same pair back returns exactly the written value. -/
theorem c7_set_get_roundtrip (A : IntegerMatrix) (i j v : Int) (i2 j2 : Nat)
    (hi : preprocess_index i A.nrows = Except.ok i2)
    (hj : preprocess_index j A.ncols = Except.ok j2) :
    (A.setitem (Key.pair i j) v).bind (fun B => B.getitem i j) = Except.ok v := by
  simp [IntegerMatrix.setitem, IntegerMatrix.getitem, hi, hj, Except.bind]

/-- C7 witness: on a 2 x 1 matrix, writing 2 to the power 100 at the negative
index pair (-1, 0) and reading it back returns the same value. -/
theorem c7_set_get_roundtrip_witness :
    ((mat7.setitem (Key.pair (-1) 0) (2 ^ 100)).bind fun B => B.getitem (-1) 0) =
      Except.ok (2 ^ 100) :=
  c7_set_get_roundtrip mat7 (-1) 0 (2 ^ 100) 1 0 rfl rfl

/-- C10: whole-row assignment through an int key raises NotImplementedError for
every row index that is valid after normalization, before any write happens. -/
theorem c10_row_assignment_raises (A : IntegerMatrix) (i : Int) (i2 : Nat) (v : Int)
    (hi : preprocess_index i A.nrows = Except.ok i2) :
    A.setitem (Key.idx i) v = Except.error "NotImplementedError" := by
  simp [IntegerMatrix.setitem, hi]

/-- C10 witness: the negative row key -2 on a 2 x 2 matrix normalizes to row 0
and the assignment still raises NotImplementedError. -/
theorem c10_row_assignment_raises_witness :
    mat22.setitem (Key.idx (-2)) 5 = Except.error "NotImplementedError" :=
  c10_row_assignment_raises mat22 (-2) 0 5 rfl

/-- Appending one element and reading at the old length yields that element. -/
theorem list_getD_append_length {α : Type} (l : List α) (x d : α) :
    (l ++ [x]).getD l.length d = x := by
  induction l with
  | nil => rfl
  | cons y ys ih => exact ih

/-- Appending one element does not change reads below the old length. -/
theorem list_getD_append_lt {α : Type} (l : List α) (x d : α) (n : Nat) (hn : n < l.length) :
    (l ++ [x]).getD n d = l.getD n d := by
  induction l generalizing n with
  | nil => exact absurd hn (by simp)
  | cons y ys ih =>
    cases n with
    | zero => rfl
    | succ n => exact ih n (Nat.lt_of_succ_lt_succ hn)

/-- Setting one list position does not change reads at a different position. -/
theorem list_getD_set_ne {α : Type} (l : List α) (x d : α) (n m : Nat) (h : n ≠ m) :
    (l.set n x).getD m d = l.getD m d := by
  induction l generalizing n m with
  | nil => rfl
  | cons y ys ih =>
    cases n with
    | zero =>
      cases m with
      | zero => exact absurd rfl h
      | succ m => rfl
    | succ n =>
      cases m with
      | zero => rfl
      | succ m => exact ih n m (fun he => h (by rw [he]))

/-- C8: copy construction allocates an independent equal matrix: the fresh copy
compares equal to the original through the equality of __richcmp__, and an
entry assignment through either of the two references leaves every entry read
through the other one unchanged. -/
theorem c8_copy_independent (h : Heap) (a : Nat) (ha : a < h.mats.length)
    (i j i2 j2 : Nat) (v : Int) :
    IntegerMatrix.eqMat ((h.copyInit a).1.getMat (h.copyInit a).2) ((h.copyInit a).1.getMat a) = true ∧
    Heap.getE (Heap.setE (h.copyInit a).1 (h.copyInit a).2 i j v) a i2 j2 =
      Heap.getE (h.copyInit a).1 a i2 j2 ∧
    Heap.getE (Heap.setE (h.copyInit a).1 a i j v) (h.copyInit a).2 i2 j2 =
      Heap.getE (h.copyInit a).1 (h.copyInit a).2 i2 j2 := by
  have hne : h.mats.length ≠ a := fun he => absurd (he ▸ ha) (lt_irrefl _)
  have hb : ∀ x : IntegerMatrix, (⟨h.mats ++ [x]⟩ : Heap).getMat h.mats.length = x :=
    fun x => list_getD_append_length h.mats x emptyMat
  have hback : ∀ x : IntegerMatrix, (⟨h.mats ++ [x]⟩ : Heap).getMat a = h.getMat a :=
    fun x => list_getD_append_lt h.mats x emptyMat a ha
  refine ⟨?_, ?_, ?_⟩
  · unfold Heap.copyInit
    rw [hb, hback]
    unfold IntegerMatrix.eqMat
    simp [List.all_eq_true]
  · unfold Heap.getE Heap.setE Heap.copyInit
    unfold Heap.getMat
    rw [list_getD_set_ne _ _ _ _ _ hne]
  · unfold Heap.getE Heap.setE Heap.copyInit
    unfold Heap.getMat
    rw [list_getD_set_ne _ _ _ _ _ (fun he => hne he.symm)]

/-- C8 witness: a heap holding one 1 x 1 matrix; writing 7 through the copy
reference leaves the original entry readable unchanged. -/
theorem c8_copy_independent_witness :
    Heap.getE (Heap.setE (heap8.copyInit 0).1 (heap8.copyInit 0).2 0 0 7) 0 0 0 =
      Heap.getE (heap8.copyInit 0).1 0 0 0 :=
  (c8_copy_independent heap8 0 (by decide) 0 0 0 0 7).2.1

/-- Iterating a fallible step succeeds elementwise: position i of the output is
the successful image of position i of the input. -/
theorem mapExcept_ok_getD {α β : Type} (f : α → Except String β) :
    ∀ (l : List α) (l2 : List β), mapExcept f l = Except.ok l2 →
      ∀ i : Nat, i < l.length → ∀ (d : α) (d2 : β),
        f (l.getD i d) = Except.ok (l2.getD i d2) := by
  intro l
  induction l with
  | nil => intro l2 _ i hi; exact absurd hi (by simp)
  | cons a t ih =>
    intro l2 hmap i hi d d2
    unfold mapExcept at hmap
    cases hfa : f a with
    | error e => rw [hfa] at hmap; simp at hmap
    | ok b =>
      rw [hfa] at hmap
      cases hmt : mapExcept f t with
      | error e => rw [hmt] at hmap; simp at hmap
      | ok bs =>
        rw [hmt] at hmap
        cases hmap
        cases i with
        | zero => exact hfa
        | succ n => exact ih bs hmt n (Nat.lt_of_succ_lt_succ hi) d d2

/-- C9: submatrix with explicit index lists: the result exists, has shape
(length rows, length cols), and its cell (i, j) is exactly the __getitem__
value of A at (rows[i], cols[j]), in the requested order. -/
theorem c9_submatrix_lists (A : IntegerMatrix) (rows cols : List Int) (rows2 cols2 : List Nat)
    (hr : mapExcept (fun r => preprocess_index r A.nrows) rows = Except.ok rows2)
    (hc : mapExcept (fun c => preprocess_index c A.ncols) cols = Except.ok cols2) :
    ∃ S, A.submatrix rows cols = Except.ok S ∧
      S.nrows = rows.length ∧ S.ncols = cols.length ∧
      ∀ i j, i < rows.length → j < cols.length →
        A.getitem (rows.getD i 0) (cols.getD j 0) = Except.ok (S.entry i j) := by
  refine ⟨⟨rows.length, cols.length, fun i j => A.entry (rows2.getD i 0) (cols2.getD j 0)⟩,
    ?_, rfl, rfl, ?_⟩
  · unfold IntegerMatrix.submatrix
    rw [hr, hc]
  · intro i j hi hj
    unfold IntegerMatrix.getitem
    rw [mapExcept_ok_getD _ rows rows2 hr i hi 0 0, mapExcept_ok_getD _ cols cols2 hc j hj 0 0]

/-- C9 witness: rows [2, 0] (non-monotonic) and cols [0, 0] (duplicated) on a
3 x 3 matrix: cell (0, 0) of the result is entry (2, 0) of the input. -/
theorem c9_submatrix_lists_witness :
    mat33.getitem 2 0 = Except.ok (matS9.entry 0 0) := by
  obtain ⟨S, hS, -, -, hent⟩ :=
    c9_submatrix_lists mat33 [2, 0] [0, 0] [2, 0] [0, 0] rfl rfl
  have h2 : mat33.submatrix [2, 0] [0, 0] = Except.ok matS9 := rfl
  have hSm : S = matS9 := Except.ok.inj (hS.symm.trans h2)
  subst hSm
  exact hent 0 0 (by decide) (by decide)
